import Mathlib

/-!
Shallow embedding of the HD44780 LCD protocol decoder
(decoders/hd44780/pd.py): the bit sampler, the command classifier and
the clock-edge transaction loop, together with theorems settling the
frozen claims about them.
-/

/-- State of one bus line in a captured sample: low, high, or
indeterminate (an unconnected optional channel reads as neither 0 nor 1). -/
inductive LineState where
  | low
  | high
  | indet
deriving DecidableEq

/-- The 11-line pin vector, one field per entry of the source's `PIN`
index class (RS, CLK, BIT_4..BIT_7, RW, BIT_0..BIT_3). -/
structure Pins where
  rs : LineState
  clk : LineState
  bit_4 : LineState
  bit_5 : LineState
  bit_6 : LineState
  bit_7 : LineState
  rw : LineState
  bit_0 : LineState
  bit_1 : LineState
  bit_2 : LineState
  bit_3 : LineState
deriving DecidableEq

/-- `pins[i] if pins[i] in (0, 1) else 0`: a high line contributes 1,
a low or indeterminate line contributes 0. -/
def bitOf : LineState → Nat
  | .high => 1
  | _ => 0

/-- `reduce(lambda a, b: (a << 1) | b, l)`: left fold whose accumulator
starts at the first element (starting from 0 is equivalent, since
`(0 <<< 1) ||| b = b`). -/
def reduceShiftLor (l : List Nat) : Nat :=
  l.foldl (fun a b => (a <<< 1) ||| b) 0

/-- `Decoder.decode_pins`: read data-bit lines 0..7, substitute 0 for a
line not in {0, 1}, reverse, and fold `(a << 1) | b`. -/
def decode_pins (p : Pins) : Nat :=
  reduceShiftLor
    ([bitOf p.bit_0, bitOf p.bit_1, bitOf p.bit_2, bitOf p.bit_3,
      bitOf p.bit_4, bitOf p.bit_5, bitOf p.bit_6, bitOf p.bit_7].reverse)

namespace ANN

/-- Annotation class indices from the source, `ANN.CLEAR` onwards. -/
def CLEAR : Nat := 0
def HOME : Nat := 1
def ENTRY_MODE : Nat := 2
def DISPLAY_CONTROL : Nat := 3
def DISPLAY_SHIFT : Nat := 4
def FUNCTION_SET : Nat := 5
def SET_CGRAM_ADDR : Nat := 6
def SET_DDRAM_ADDR : Nat := 7
def READ_BF_AC : Nat := 8
def MEM_WRITE : Nat := 9
def MEM_READ : Nat := 10
def STATE : Nat := 11
def WARNING : Nat := 12

end ANN

/-- The decoder's `annotations` table: (id, description) pairs. -/
def annotationTable : List (String × String) :=
  [("clear", "Clear display"),
   ("home", "Cursor home"),
   ("entry_mode", "Entry mode"),
   ("display_control", "Display control"),
   ("diplay_shift", "Display shift"),
   ("function_set", "Function set"),
   ("set_cgram_addr", "Set CGRAM address"),
   ("set_ddram_addr", "Set DDRAM address"),
   ("read_bf_ac", "Read busy flag and address counter"),
   ("mem_write", "Write to CGRAM or DDRAM"),
   ("mem_read", "Read from CGRAM or DDRAM"),
   ("state", "Controller state"),
   ("warning", "Warning")]

/-- `self.annotations[n_ann][1]`. -/
def annDesc (n : Nat) : String :=
  (annotationTable.getD n ("", "")).2

/-- An emitted annotation value: class index plus label variants, the
source's `[n_ann, [labels...]]` list pair. -/
abbrev Ann := Nat × List String

/-- `Decoder.basic_annotation`: long description first, then the extra
descriptions, then the one-character prefix of the long description. -/
def basic_ann (n : Nat) (further : List String := []) : Ann :=
  (n, [annDesc n] ++ further ++ [(annDesc n).take 1])

/-- Python `chr(n)` rendered as a one-character string. -/
def chrStr (n : Nat) : String :=
  String.mk [Char.ofNat n]

/-- A single-quote character as a string (used by the memory-write labels). -/
def squote : String :=
  String.mk [Char.ofNat 39]

/-- Python format `{:x}`: lowercase hexadecimal, no padding. -/
def formatHex (n : Nat) : String :=
  String.mk (Nat.toDigits 16 n)

/-- Python format `{:2x}`: lowercase hexadecimal, right-aligned in a
field of width 2, padded with spaces. -/
def format2x (n : Nat) : String :=
  let s := String.mk (Nat.toDigits 16 n)
  if s.length < 2 then " " ++ s else s

/-- Python format `{:8b}`: binary, right-aligned in a field of width 8,
padded with spaces. -/
def format8b (n : Nat) : String :=
  let s := String.mk (Nat.toDigits 2 n)
  String.mk (List.replicate (8 - s.length) ' ') ++ s

/-- The decoder's bus-width state (`self.state`): the strings `'8bit'`,
`'4bit_first_nibble'`, `'4bit_second_nibble'`. -/
inductive Mode where
  | eightBit
  | fourBitFirstNibble
  | fourBitSecondNibble
deriving DecidableEq

/-- `Decoder.decode_write_command`: threshold chain on the byte value.
The initial `ann` is the defensive Warning annotation, overwritten on
every path of the if/elif/else chain; the function-set branch also
assigns `self.state`, threaded here as the `Mode` component. -/
def decode_write_command (val : Nat) (st : Mode) : Ann × Mode :=
  let _dflt : Ann := basic_ann ANN.WARNING [format8b val ++ ": Unknown command"]
  if val < (1 <<< 1) then
    (basic_ann ANN.CLEAR ["Clr"], st)
  else if val < (1 <<< 2) then
    (basic_ann ANN.HOME ["CH"], st)
  else if val < (1 <<< 3) then
    let inc := if val &&& 0x1 ≠ 0 then "inc" else "dec"
    let shift := if val &&& 0x0 ≠ 0 then "true" else "false"
    ((ANN.ENTRY_MODE,
      ["Entry mode: direction: " ++ inc ++ ", shift: " ++ shift,
       "Dir: " ++ inc ++ ", shift: " ++ shift,
       inc ++ ", " ++ shift,
       inc.take 1 ++ ", " ++ shift.take 1]), st)
  else if val < (1 <<< 4) then
    (basic_ann ANN.DISPLAY_CONTROL ["Display control: <not implemented>"], st)
  else if val < (1 <<< 5) then
    (basic_ann ANN.DISPLAY_SHIFT ["Display shift: <not implemented>"], st)
  else if val < (1 <<< 6) then
    if val &&& (1 <<< 4) ≠ 0 then
      (basic_ann ANN.FUNCTION_SET ["Function Set: 8 bit mode"], Mode.eightBit)
    else
      (basic_ann ANN.FUNCTION_SET ["Function Set: 4 bit mode"], Mode.fourBitFirstNibble)
  else if val < (1 <<< 7) then
    (basic_ann ANN.SET_CGRAM_ADDR ["Set CGRAM Address: 0x" ++ format2x (val &&& 0x3f)], st)
  else
    (basic_ann ANN.SET_DDRAM_ADDR ["Set DDRAM Address: 0x" ++ format2x (val &&& 0x7f)], st)

/-- The RS/RW dispatch at the tail of `Decoder.decode`: `pins[PIN.RS] == 0`
selects the command paths, `pins[PIN.RW] == 1` selects the read paths;
an indeterminate line compares unequal to both 0 and 1. -/
def classify (rs rw : LineState) (val : Nat) (st : Mode) : Ann × Mode :=
  if rs = LineState.low then
    if rw = LineState.high then
      (basic_ann ANN.READ_BF_AC, st)
    else
      decode_write_command val st
  else
    if rw = LineState.high then
      ((ANN.MEM_READ, ["Read: <not implemented>"]), st)
    else
      ((ANN.MEM_WRITE,
        ["Write: 0x" ++ formatHex val ++ ", " ++ squote ++ chrStr val ++ squote,
         squote ++ chrStr val ++ squote]), st)

/-- One clock cycle as seen by the decode loop: the sample index of the
falling edge, the pin vector captured there, and the sample index of
the following rising edge. -/
structure ClockCycle where
  fallSample : Nat
  pins : Pins
  riseSample : Nat
deriving DecidableEq

/-- The `while True` loop of `Decoder.decode`, driven by the list of
clock cycles. `start` and `valFirst` model the Python locals
`start_sample` and `val_first_half`, which persist across iterations;
an annotation is `(start_sample, end_sample, ann)` as passed to
`self.put`. -/
def decodeLoop : Mode → Nat → Nat → List ClockCycle → List (Nat × Nat × Ann)
  | _, _, _, [] => []
  | Mode.eightBit, _, valFirst, c :: rest =>
    let val := decode_pins c.pins
    let r := classify c.pins.rs c.pins.rw val Mode.eightBit
    (c.fallSample, c.riseSample, r.1) :: decodeLoop r.2 c.fallSample valFirst rest
  | Mode.fourBitFirstNibble, _, _, c :: rest =>
    decodeLoop Mode.fourBitSecondNibble c.fallSample (decode_pins c.pins) rest
  | Mode.fourBitSecondNibble, start, valFirst, c :: rest =>
    let val := (decode_pins c.pins >>> 4) + valFirst
    let r := classify c.pins.rs c.pins.rw val Mode.fourBitFirstNibble
    (start, c.riseSample, r.1) :: decodeLoop r.2 start valFirst rest

/-- `Decoder.decode`'s preamble: the initial state from the `mode`
option (`'8bit'` or `'4bit'`). -/
def initialMode (opt : String) : Option Mode :=
  if opt = "8bit" then some Mode.eightBit
  else if opt = "4bit" then some Mode.fourBitFirstNibble
  else none

/-- Full decode run from a configured option string. -/
def decode (opt : String) (trace : List ClockCycle) : List (Nat × Nat × Ann) :=
  match initialMode opt with
  | some m => decodeLoop m 0 0 trace
  | none => []

/-- A pin vector with every line low. -/
def pinsAllLow : Pins :=
  ⟨.low, .low, .low, .low, .low, .low, .low, .low, .low, .low, .low⟩

/-- A pin vector decoding to byte 16: data bit 4 high, all else low. -/
def pinsBit4 : Pins :=
  { pinsAllLow with bit_4 := .high }

/-- A pin vector decoding to byte 0xFF: all eight data bits high,
control lines low. -/
def pinsFF : Pins :=
  ⟨.low, .low, .high, .high, .high, .high, .low, .high, .high, .high, .high⟩

/-- A pin vector decoding to byte 0xF0: data bits 4..7 high, the rest low. -/
def pinsF0 : Pins :=
  { pinsAllLow with bit_4 := .high, bit_5 := .high, bit_6 := .high, bit_7 := .high }

/-! ## Helper lemmas -/

/-- One fold step of the bit sampler: shifting the accumulator left and
or-ing in a bit value (0 or 1) is the same as doubling and adding. -/
lemma shiftLor_step (a : Nat) (s : LineState) :
    ((a <<< 1) ||| bitOf s) = 2 * a + bitOf s := by
  have hbit : a <<< 1 = Nat.bit false a := by
    simp [Nat.bit, Nat.shiftLeft_eq, Nat.mul_comm]
  cases s
  case high =>
    show ((a <<< 1) ||| 1) = 2 * a + 1
    have hone : (1 : Nat) = Nat.bit true 0 := by simp [Nat.bit]
    rw [hbit, hone, Nat.lor_bit]
    simp [Nat.bit]
  case low =>
    show ((a <<< 1) ||| 0) = 2 * a + 0
    simp [Nat.shiftLeft_eq, Nat.mul_comm]
  case indet =>
    show ((a <<< 1) ||| 0) = 2 * a + 0
    simp [Nat.shiftLeft_eq, Nat.mul_comm]

/-- With RS low and R/W not high, classification is the command-write path. -/
lemma classify_low_write (rw : LineState) (hrw : rw ≠ LineState.high)
    (v : Nat) (st : Mode) :
    classify LineState.low rw v st = decode_write_command v st := by
  cases rw
  case high => exact absurd rfl hrw
  case low => simp [classify]
  case indet => simp [classify]

/-- The state component returned by the command-write classifier: changed
exactly on the function-set interval, by bit 4 of the value. -/
lemma decode_write_command_snd (v : Nat) (st : Mode) :
    (decode_write_command v st).2 =
      if 32 ≤ v ∧ v < 64 then
        (if v &&& (1 <<< 4) ≠ 0 then Mode.eightBit else Mode.fourBitFirstNibble)
      else st := by
  simp only [decode_write_command]
  split_ifs <;> first | rfl | (exfalso; omega)

/-! ## Claim theorems -/

/-- Claim C3: the bit sampler is a pure total function on pin vectors,
reading data-bit lines 0 through 7 in increasing bit-index order,
substituting 0 for a line state that is neither low nor high, and
packing least-significant-bit first: the result is the sum of
d_i * 2 ^ i over i = 0..7. -/
theorem sample_to_byte_lsb_first (p : Pins) :
    decode_pins p =
      bitOf p.bit_0 * 2 ^ 0 + bitOf p.bit_1 * 2 ^ 1 + bitOf p.bit_2 * 2 ^ 2 +
      bitOf p.bit_3 * 2 ^ 3 + bitOf p.bit_4 * 2 ^ 4 + bitOf p.bit_5 * 2 ^ 5 +
      bitOf p.bit_6 * 2 ^ 6 + bitOf p.bit_7 * 2 ^ 7 := by
  show List.foldl (fun a b => (a <<< 1) ||| b) 0
      [bitOf p.bit_7, bitOf p.bit_6, bitOf p.bit_5, bitOf p.bit_4,
       bitOf p.bit_3, bitOf p.bit_2, bitOf p.bit_1, bitOf p.bit_0] = _
  simp only [List.foldl]
  rw [shiftLor_step, shiftLor_step, shiftLor_step, shiftLor_step,
      shiftLor_step, shiftLor_step, shiftLor_step, shiftLor_step]
  ring

/-- Claim C2: classifying a byte value in [0, 255] with RS = command and
R/W = write dispatches on the smallest matching power-of-two threshold,
with CGRAM addresses masked by 0x3F and DDRAM addresses by 0x7F. -/
theorem command_write_threshold_dispatch (v : Nat) (st : Mode) (hv : v ≤ 255) :
    ((classify LineState.low LineState.low v st).1.1 =
      (if v < 2 then ANN.CLEAR
       else if v < 4 then ANN.HOME
       else if v < 8 then ANN.ENTRY_MODE
       else if v < 16 then ANN.DISPLAY_CONTROL
       else if v < 32 then ANN.DISPLAY_SHIFT
       else if v < 64 then ANN.FUNCTION_SET
       else if v < 128 then ANN.SET_CGRAM_ADDR
       else ANN.SET_DDRAM_ADDR))
    ∧ (64 ≤ v → v < 128 →
        (classify LineState.low LineState.low v st).1 =
          basic_ann ANN.SET_CGRAM_ADDR
            ["Set CGRAM Address: 0x" ++ format2x (v &&& 0x3f)])
    ∧ (128 ≤ v →
        (classify LineState.low LineState.low v st).1 =
          basic_ann ANN.SET_DDRAM_ADDR
            ["Set DDRAM Address: 0x" ++ format2x (v &&& 0x7f)]) := by
  rw [classify_low_write LineState.low (by decide) v st]
  refine ⟨?_, fun h1 h2 => ?_, fun h1 => ?_⟩ <;>
    · simp only [decode_write_command,
        show (1 : Nat) <<< 1 = 2 from rfl, show (1 : Nat) <<< 2 = 4 from rfl,
        show (1 : Nat) <<< 3 = 8 from rfl, show (1 : Nat) <<< 4 = 16 from rfl,
        show (1 : Nat) <<< 5 = 32 from rfl, show (1 : Nat) <<< 6 = 64 from rfl,
        show (1 : Nat) <<< 7 = 128 from rfl]
      split_ifs <;> first | rfl | (exfalso; omega)

/-- Witness for C2 at the boundary byte 0x60 (96): SetCGRAMAddress with
address 0x20. -/
theorem command_write_threshold_dispatch_witness :
    (classify LineState.low LineState.low 96 Mode.eightBit).1 =
      basic_ann ANN.SET_CGRAM_ADDR ["Set CGRAM Address: 0x20"] :=
  ((command_write_threshold_dispatch 96 Mode.eightBit (by decide)).2.1
    (by decide) (by decide)).trans (by decide)

/-- Claim C5: a byte value in [4, 8) with RS = command and R/W = write
yields EntryModeSet: direction is inc iff bit 0 is set, and the shift
flag is reported false for every such value, regardless of bit 1. -/
theorem entry_mode_direction_and_shift (v : Nat) (st : Mode)
    (h4 : 4 ≤ v) (h8 : v < 8) :
    (classify LineState.low LineState.low v st).1 =
      (ANN.ENTRY_MODE,
       ["Entry mode: direction: " ++ (if v &&& 1 = 1 then "inc" else "dec") ++
          ", shift: false",
        "Dir: " ++ (if v &&& 1 = 1 then "inc" else "dec") ++ ", shift: false",
        (if v &&& 1 = 1 then "inc" else "dec") ++ ", false",
        (if v &&& 1 = 1 then "inc" else "dec").take 1 ++ ", f"]) := by
  cases st <;> interval_cases v <;> decide

/-- Witness for C5 at v = 5: direction inc, shift false. -/
theorem entry_mode_direction_and_shift_witness :
    (classify LineState.low LineState.low 5 Mode.eightBit).1 =
      (ANN.ENTRY_MODE,
       ["Entry mode: direction: inc, shift: false",
        "Dir: inc, shift: false", "inc, false", "i, f"]) :=
  (entry_mode_direction_and_shift 5 Mode.eightBit (by decide) (by decide)).trans
    (by decide)

/-- Claim C8: the defensive Warning default of the command-write
classifier is dead: for every byte value in [0, 255] some threshold
branch matches, so the emitted annotation is never a Warning. -/
theorem warning_branch_unreachable (v : Nat) (st : Mode) (hv : v ≤ 255) :
    (classify LineState.low LineState.low v st).1.1 ≠ ANN.WARNING := by
  rw [classify_low_write LineState.low (by decide) v st]
  simp only [decode_write_command]
  split_ifs <;>
    simp [basic_ann, ANN.CLEAR, ANN.HOME, ANN.ENTRY_MODE, ANN.DISPLAY_CONTROL,
      ANN.DISPLAY_SHIFT, ANN.FUNCTION_SET, ANN.SET_CGRAM_ADDR,
      ANN.SET_DDRAM_ADDR, ANN.WARNING]

/-- Witness for C8 at v = 0. -/
theorem warning_branch_unreachable_witness :
    (classify LineState.low LineState.low 0 Mode.eightBit).1.1 ≠ ANN.WARNING :=
  warning_branch_unreachable 0 Mode.eightBit (by decide)

/-- Claim C4: classification re-derives the bus-width state only through
the FunctionSet interval [32, 64) of the command-write path, where the
new mode is EightBit iff bit 4 of the value is set; every other
classification (other value ranges, and the read and memory paths)
returns the state unchanged. -/
theorem mode_rederived_only_by_function_set (rs rw : LineState) (v : Nat) (st : Mode) :
    (rs = LineState.low → rw ≠ LineState.high → 32 ≤ v → v < 64 →
      (classify rs rw v st).2 =
        if v &&& (1 <<< 4) ≠ 0 then Mode.eightBit else Mode.fourBitFirstNibble)
    ∧ (rs = LineState.low → rw ≠ LineState.high → (v < 32 ∨ 64 ≤ v) →
        (classify rs rw v st).2 = st)
    ∧ ((rs ≠ LineState.low ∨ rw = LineState.high) → (classify rs rw v st).2 = st) := by
  refine ⟨fun h1 h2 h3 h4 => ?_, fun h1 h2 h3 => ?_, fun h => ?_⟩
  · subst h1
    rw [classify_low_write rw h2 v st, decode_write_command_snd, if_pos ⟨h3, h4⟩]
  · subst h1
    rw [classify_low_write rw h2 v st, decode_write_command_snd, if_neg (by omega)]
  · rcases h with h | h
    · cases rs
      · exact absurd rfl h
      · cases rw <;> rfl
      · cases rw <;> rfl
    · subst h
      cases rs <;> rfl

/-- Witness for C4: FunctionSet value 48 (bit 4 set) switches the mode to
EightBit; value 100 and a memory access leave it unchanged. -/
theorem mode_rederived_only_by_function_set_witness :
    (classify LineState.low LineState.low 48 Mode.fourBitFirstNibble).2 = Mode.eightBit ∧
    (classify LineState.low LineState.low 100 Mode.eightBit).2 = Mode.eightBit ∧
    (classify LineState.high LineState.low 48 Mode.eightBit).2 = Mode.eightBit := by
  refine ⟨?_, ?_, ?_⟩
  · exact ((mode_rederived_only_by_function_set LineState.low LineState.low 48
      Mode.fourBitFirstNibble).1 rfl (by decide) (by decide) (by decide)).trans
      (by decide)
  · exact (mode_rederived_only_by_function_set LineState.low LineState.low 100
      Mode.eightBit).2.1 rfl (by decide) (Or.inr (by decide))
  · exact (mode_rederived_only_by_function_set LineState.high LineState.low 48
      Mode.eightBit).2.2 (Or.inl (by decide))

/-- Claim C9: path selection compares the control lines by strict
equality: a non-low RS (including indeterminate) classifies as a memory
access, an indeterminate RS behaves exactly like a high one, and an
indeterminate R/W behaves exactly like a low one (a write). -/
theorem control_line_strict_equality (rs rw : LineState) (v : Nat) (st : Mode) :
    (rs ≠ LineState.low →
      (classify rs rw v st).1.1 = ANN.MEM_READ ∨
      (classify rs rw v st).1.1 = ANN.MEM_WRITE)
    ∧ classify rs LineState.indet v st = classify rs LineState.low v st
    ∧ classify LineState.indet rw v st = classify LineState.high rw v st := by
  refine ⟨fun h => ?_, ?_, ?_⟩
  · cases rs
    · exact absurd rfl h
    · cases rw
      · right; rfl
      · left; rfl
      · right; rfl
    · cases rw
      · right; rfl
      · left; rfl
      · right; rfl
  · cases rs <;> rfl
  · cases rw <;> rfl

/-- Witness for C9: an indeterminate RS with R/W low is a memory access,
and the indeterminate-line equalities at concrete inputs. -/
theorem control_line_strict_equality_witness :
    ((classify LineState.indet LineState.low 65 Mode.eightBit).1.1 = ANN.MEM_READ ∨
     (classify LineState.indet LineState.low 65 Mode.eightBit).1.1 = ANN.MEM_WRITE) ∧
    classify LineState.low LineState.indet 1 Mode.eightBit =
      classify LineState.low LineState.low 1 Mode.eightBit ∧
    classify LineState.indet LineState.high 2 Mode.eightBit =
      classify LineState.high LineState.high 2 Mode.eightBit :=
  ⟨(control_line_strict_equality LineState.indet LineState.low 65 Mode.eightBit).1
      (by decide),
   (control_line_strict_equality LineState.low LineState.indet 1 Mode.eightBit).2.1,
   (control_line_strict_equality LineState.indet LineState.high 2 Mode.eightBit).2.2⟩

/-- Claim C6: each completed transaction produces exactly one annotation,
spanning the falling edge at which its decoding began (in 4-bit mode the
first-nibble falling edge) to the rising edge after byte completion; in
both modes the loop then continues on the remaining cycles, so no
transaction is dropped or merged. -/
theorem one_annotation_per_transaction
    (c c₁ c₂ : ClockCycle) (rest rest₄ : List ClockCycle) (s s₄ w w₄ : Nat) :
    (decodeLoop Mode.eightBit s w (c :: rest) =
      (c.fallSample, c.riseSample,
        (classify c.pins.rs c.pins.rw (decode_pins c.pins) Mode.eightBit).1) ::
      decodeLoop (classify c.pins.rs c.pins.rw (decode_pins c.pins) Mode.eightBit).2
        c.fallSample w rest)
    ∧ (decodeLoop Mode.fourBitFirstNibble s₄ w₄ (c₁ :: c₂ :: rest₄) =
      (c₁.fallSample, c₂.riseSample,
        (classify c₂.pins.rs c₂.pins.rw
          ((decode_pins c₂.pins >>> 4) + decode_pins c₁.pins)
          Mode.fourBitFirstNibble).1) ::
      decodeLoop
        (classify c₂.pins.rs c₂.pins.rw
          ((decode_pins c₂.pins >>> 4) + decode_pins c₁.pins)
          Mode.fourBitFirstNibble).2
        c₁.fallSample (decode_pins c₁.pins) rest₄) :=
  ⟨rfl, rfl⟩

/-- Counterexample to C1 as stated: a first-nibble sample decoding to
a = 16 and a second-nibble sample decoding to b = 0. The claim's formula
(b >> 4) + (a & 0xF) gives 0, which would classify as ClearDisplay, but
the loop reassembles (b >> 4) + a = 16 and emits DisplayShift. -/
theorem fourbit_low_nibble_formula_refuted :
    decode_pins pinsBit4 = 16 ∧ decode_pins pinsAllLow = 0 ∧
    ((decode_pins pinsAllLow >>> 4) + (decode_pins pinsBit4 &&& 0xF)) = 0 ∧
    (decodeLoop Mode.fourBitFirstNibble 0 0
        [⟨0, pinsBit4, 1⟩, ⟨2, pinsAllLow, 3⟩]).map (fun t => t.2.2.1) =
      [ANN.DISPLAY_SHIFT] ∧
    (classify LineState.low LineState.low 0 Mode.eightBit).1.1 = ANN.CLEAR ∧
    ANN.DISPLAY_SHIFT ≠ ANN.CLEAR := by
  refine ⟨by decide, by decide, by decide, by decide, by decide, by decide⟩

/-- Claim C1 (amended): in 4-bit mode the reassembled transaction value
handed to classification is (b >> 4) + a, the high nibble of the second
sample added (not bitwise-ORed) to the FULL first-sample byte, with no
& 0xF masking of the first byte. -/
theorem fourbit_reassembly_adds_full_first_byte
    (c₁ c₂ : ClockCycle) (rest : List ClockCycle) (s w : Nat) :
    (decodeLoop Mode.fourBitFirstNibble s w (c₁ :: c₂ :: rest)).head? =
      some (c₁.fallSample, c₂.riseSample,
        (classify c₂.pins.rs c₂.pins.rw
          ((decode_pins c₂.pins >>> 4) + decode_pins c₁.pins)
          Mode.fourBitFirstNibble).1) :=
  rfl

/-- Counterexample to C7 as stated, refuting each failing conjunct at a
concrete input: the memory-read classification carries exactly one label
(not between 2 and 4), that sole (hence last) label is not a
single-character abbreviation, and the DisplayControl classification's
labels are not ordered from most to least verbose — its second label is
strictly longer than its first. -/
theorem label_list_claim_refuted :
    ((classify LineState.high LineState.high 0 Mode.eightBit).1.2).length = 1 ∧
    ¬ 2 ≤ ((classify LineState.high LineState.high 0 Mode.eightBit).1.2).length ∧
    (classify LineState.high LineState.high 0 Mode.eightBit).1.2.getLast? =
      some "Read: <not implemented>" ∧
    ("Read: <not implemented>" : String).length ≠ 1 ∧
    (classify LineState.low LineState.low 8 Mode.eightBit).1.2 =
      ["Display control", "Display control: <not implemented>", "D"] ∧
    ("Display control" : String).length <
      ("Display control: <not implemented>" : String).length := by
  refine ⟨by decide, by decide, by decide, by decide, by decide, by decide⟩

/-- Claim C7 (amended): every classification result carries between 1 and
4 label strings, and every result built through the basic-annotation
helper ends in the one-character prefix of its category description. -/
theorem label_count_bounds (rs rw : LineState) (v : Nat) (st : Mode) :
    (1 ≤ ((classify rs rw v st).1.2).length ∧
      ((classify rs rw v st).1.2).length ≤ 4)
    ∧ ∀ (n : Nat) (fds : List String),
        (basic_ann n fds).2.getLast? = some ((annDesc n).take 1) := by
  constructor
  · cases rs
    · cases rw
      · rw [classify_low_write LineState.low (by decide) v st]
        simp only [decode_write_command]
        split_ifs <;> simp [basic_ann]
      · simp [classify, basic_ann]
      · rw [classify_low_write LineState.indet (by decide) v st]
        simp only [decode_write_command]
        split_ifs <;> simp [basic_ann]
    · cases rw <;> simp [classify, basic_ann]
    · cases rw <;> simp [classify, basic_ann]
  · intro n fds
    show ([annDesc n] ++ fds ++ [(annDesc n).take 1]).getLast? = _
    exact List.getLast?_concat _

/-- Claim C10: in 4-bit mode the value handed to the classifier can
exceed 255 (first sample 0xFF, second sample 0xF0 reassemble to 270),
the classifier is total on such values, and every value at least 128
lands in the SetDDRAMAddress branch. -/
theorem fourbit_value_can_exceed_byte :
    (decode_pins pinsFF = 255 ∧ decode_pins pinsF0 = 240 ∧
     (decode_pins pinsF0 >>> 4) + decode_pins pinsFF = 270 ∧ 255 < 270 ∧
     (decodeLoop Mode.fourBitFirstNibble 0 0
        [⟨0, pinsFF, 1⟩, ⟨2, pinsF0, 3⟩]).map (fun t => t.2.2.1) =
       [ANN.SET_DDRAM_ADDR])
    ∧ ∀ (v : Nat) (st : Mode), 128 ≤ v →
        (classify LineState.low LineState.low v st).1.1 = ANN.SET_DDRAM_ADDR := by
  constructor
  · refine ⟨by decide, by decide, by decide, by decide, by decide⟩
  · intro v st h
    rw [classify_low_write LineState.low (by decide) v st]
    simp only [decode_write_command]
    split_ifs <;> first | rfl | (exfalso; omega)

/-- Witness for C10 at the overflowed value 270. -/
theorem fourbit_value_can_exceed_byte_witness :
    (classify LineState.low LineState.low 270 Mode.eightBit).1.1 =
      ANN.SET_DDRAM_ADDR :=
  fourbit_value_can_exceed_byte.2 270 Mode.eightBit (by decide)
